import Mathlib

/-!
Verification of the pipeline execution and monitoring engine of the
Devops-tool backend, shallowly embedded from

  * `backend/app/services/pipeline_runner.py` (`PipelineRunner.run_pipeline`),
  * `backend/app/routes/pipelines.py` (`trigger_pipeline_execution`),
  * `backend/app/websocket_handlers.py` (`stream_pipeline_logs` and the
    poller-start guard of `handle_subscribe_logs`),
  * `backend/app/models.py` (the `PipelineExecution` record).

Machine state that the Python code obtains from the outside world (the docker
daemon, the Bitbucket HTTP API, the wall clock) is passed in as explicit
oracles, so that every definition is executable.
-/

namespace DevopsTool

/-! ## Sandbox runner: `pipeline_runner.py`

`run_pipeline` receives the parsed YAML configuration; we embed the parsed
form directly (`yaml.safe_load` plus the `config.get(...)` accesses):
each entry of `pipelines.default` is a step with a name and a `script`
command list. -/

/-- One entry of the `default` pipeline: `step.get('name', 'Unnamed step')`
and `step.get('script', [])` of `run_pipeline`. -/
structure Step where
  name : String
  script : List String
deriving Repr, DecidableEq

/-- The parsed pipeline configuration: `config.get('image', ...)` together
with `config.get('pipelines', \x7b\x7d).get('default', [])`. -/
structure PipelineConfig where
  image : String
  defaultPipeline : List Step
deriving Repr, DecidableEq

/-- The result dict of `run_pipeline`: keys `success`, `output`, `error`. -/
structure RunResult where
  success : Bool
  output : String
  error : Option String
deriving Repr, DecidableEq

/-- `all_output.append(f"\n=== Running step: \x7bstep_name\x7d ===\n")`. -/
def stepHeader (name : String) : String :=
  "\n=== Running step: " ++ name ++ " ===\n"

/-- `f'Step "\x7bstep_name\x7d" failed with exit code \x7bexit_code\x7d'`. -/
def stepFailMsg (name : String) (exitCode : Nat) : String :=
  "Step \"" ++ name ++ "\" failed with exit code " ++ toString exitCode

/-- The step loop of `run_pipeline` (lines 62–145).  The docker daemon is
the oracle `exec`: the `k`-th container provisioned during this run exits
with code `(exec k).1` and produces logs `(exec k).2` (we model the
exception-free docker path: `containers.run`/`container.wait` succeed).
`acc` is the `all_output` list, kept in reverse; the returned `Nat` counts
the containers provisioned so far.  Writing the step script file and the
best-effort image pull have no observable effect on the result and are
elided. -/
def runSteps (exec : Nat → Nat × String) :
    List Step → Nat → List String → RunResult × Nat
  | [], k, acc =>
    ({ success := true, output := String.intercalate "\n" acc.reverse,
       error := none }, k)
  | step :: rest, k, acc =>
    let acc := stepHeader step.name :: acc
    let exitCode := (exec k).1
    let logs := (exec k).2
    let acc := logs :: acc
    if exitCode ≠ 0 then
      ({ success := false, output := String.intercalate "\n" acc.reverse,
         error := some (stepFailMsg step.name exitCode) }, k + 1)
    else
      runSteps exec rest (k + 1) acc

/-- `PipelineRunner.run_pipeline` for an already-parsed configuration and
`repository_url=None` (no clone).  A configuration whose `default` pipeline
is empty is rejected before any container is provisioned (lines 37–42);
the second component counts provisioned containers. -/
def run_pipeline (config : PipelineConfig) (exec : Nat → Nat × String) :
    RunResult × Nat :=
  if config.defaultPipeline.isEmpty then
    ({ success := false, output := "", error := some "No default pipeline defined" }, 0)
  else
    runSteps exec config.defaultPipeline 0 []

/-! ### Runner lemmas -/

lemma runSteps_all_zero (exec : Nat → Nat × String) :
    ∀ (steps : List Step) (k : Nat) (acc : List String),
      (∀ j, j < steps.length → (exec (k + j)).1 = 0) →
      (runSteps exec steps k acc).1.success = true ∧
      (runSteps exec steps k acc).1.error = none ∧
      (runSteps exec steps k acc).2 = k + steps.length := by
  intro steps
  induction steps with
  | nil => intro k acc _; exact ⟨rfl, rfl, rfl⟩
  | cons step rest ih =>
    intro k acc h
    have h0 : (exec (k + 0)).1 = 0 := h 0 (Nat.succ_pos _)
    simp only [Nat.add_zero] at h0
    have hrec := ih (k + 1) ((exec k).2 :: stepHeader step.name :: acc)
      (by
        intro j hj
        have := h (j + 1) (by simpa using Nat.succ_lt_succ hj)
        simpa [Nat.add_assoc, Nat.add_comm 1 j] using this)
    simp only [runSteps, h0, ne_eq, not_true_eq_false, if_false, ite_false]
    refine ⟨hrec.1, hrec.2.1, ?_⟩
    rw [hrec.2.2]
    simp [List.length_cons]
    omega

lemma runSteps_first_fail (exec : Nat → Nat × String) :
    ∀ (steps : List Step) (k : Nat) (acc : List String) (i : Nat)
      (hi : i < steps.length),
      (∀ j, j < i → (exec (k + j)).1 = 0) → (exec (k + i)).1 ≠ 0 →
      (runSteps exec steps k acc).1.success = false ∧
      (runSteps exec steps k acc).1.error =
        some (stepFailMsg (steps.get ⟨i, hi⟩).name (exec (k + i)).1) ∧
      (runSteps exec steps k acc).2 = k + i + 1 := by
  intro steps
  induction steps with
  | nil => intro k acc i hi; simp at hi
  | cons step rest ih =>
    intro k acc i hi hz hf
    cases i with
    | zero =>
      simp only [Nat.add_zero] at hf
      simp [runSteps, hf]
    | succ i' =>
      have h0 : (exec (k + 0)).1 = 0 := hz 0 (Nat.succ_pos _)
      simp only [Nat.add_zero] at h0
      have hi' : i' < rest.length := by simpa using Nat.lt_of_succ_lt_succ hi
      have hrec := ih (k + 1) ((exec k).2 :: stepHeader step.name :: acc) i' hi'
        (by
          intro j hj
          have := hz (j + 1) (Nat.succ_lt_succ hj)
          simpa [Nat.add_assoc, Nat.add_comm 1 j] using this)
        (by
          have : k + 1 + i' = k + (i' + 1) := by omega
          rw [this]; exact hf)
      simp only [runSteps, h0, ne_eq, not_true_eq_false, if_false, ite_false]
      refine ⟨hrec.1, ?_, ?_⟩
      · rw [hrec.2.1]
        have harg : k + 1 + i' = k + (i' + 1) := by omega
        simp [harg]
      · rw [hrec.2.2]; omega

/-- C1.  For every parsed pipeline definition with at least one step,
`run_pipeline` executes the steps in declared order and stops at the first
step whose command sequence exits non-zero: the result has `success=false`,
the error names the failing step, and no step after the failing one is ever
executed (the container count is exactly the failing index plus one); if
every step exits zero the result has `success=true` and `error=null` and
every step ran. -/
theorem runner_fail_fast (config : PipelineConfig) (exec : Nat → Nat × String)
    (hne : config.defaultPipeline ≠ []) :
    (∀ (i : Nat) (hi : i < config.defaultPipeline.length),
      (∀ j, j < i → (exec j).1 = 0) → (exec i).1 ≠ 0 →
      (run_pipeline config exec).1.success = false ∧
      (run_pipeline config exec).1.error =
        some (stepFailMsg (config.defaultPipeline.get ⟨i, hi⟩).name (exec i).1) ∧
      (run_pipeline config exec).2 = i + 1) ∧
    ((∀ j, j < config.defaultPipeline.length → (exec j).1 = 0) →
      (run_pipeline config exec).1.success = true ∧
      (run_pipeline config exec).1.error = none ∧
      (run_pipeline config exec).2 = config.defaultPipeline.length) := by
  have hemp : config.defaultPipeline.isEmpty = false := by
    cases h : config.defaultPipeline with
    | nil => exact absurd h hne
    | cons a l => rfl
  constructor
  · intro i hi hz hf
    have := runSteps_first_fail exec config.defaultPipeline 0 [] i hi
      (by intro j hj; simpa using hz j hj) (by simpa using hf)
    simpa [run_pipeline, hemp] using this
  · intro hall
    have := runSteps_all_zero exec config.defaultPipeline 0 []
      (by intro j hj; simpa using hall j hj)
    simpa [run_pipeline, hemp] using this

/-- Witness for C1: a two-step definition where the first step exits 0 and
the second exits 1 fails at step `deploy` with two containers provisioned;
with both exiting 0 it succeeds. -/
theorem runner_fail_fast_witness :
    ((run_pipeline ⟨"atlassian/default-image:3",
        [⟨"build", ["make"]⟩, ⟨"deploy", ["make deploy"]⟩]⟩
        (fun k => if k = 0 then (0, "ok") else (1, "boom"))).1.success = false ∧
      (run_pipeline ⟨"atlassian/default-image:3",
        [⟨"build", ["make"]⟩, ⟨"deploy", ["make deploy"]⟩]⟩
        (fun k => if k = 0 then (0, "ok") else (1, "boom"))).1.error =
        some (stepFailMsg "deploy" 1) ∧
      (run_pipeline ⟨"atlassian/default-image:3",
        [⟨"build", ["make"]⟩, ⟨"deploy", ["make deploy"]⟩]⟩
        (fun k => if k = 0 then (0, "ok") else (1, "boom"))).2 = 2) ∧
    ((run_pipeline ⟨"atlassian/default-image:3",
        [⟨"build", ["make"]⟩, ⟨"deploy", ["make deploy"]⟩]⟩
        (fun _ => (0, "ok"))).1.success = true ∧
      (run_pipeline ⟨"atlassian/default-image:3",
        [⟨"build", ["make"]⟩, ⟨"deploy", ["make deploy"]⟩]⟩
        (fun _ => (0, "ok"))).1.error = none ∧
      (run_pipeline ⟨"atlassian/default-image:3",
        [⟨"build", ["make"]⟩, ⟨"deploy", ["make deploy"]⟩]⟩
        (fun _ => (0, "ok"))).2 = 2) := by
  constructor
  · have h := (runner_fail_fast
      ⟨"atlassian/default-image:3", [⟨"build", ["make"]⟩, ⟨"deploy", ["make deploy"]⟩]⟩
      (fun k => if k = 0 then (0, "ok") else (1, "boom"))
      (by decide)).1 1 (by decide)
      (by intro j hj; have hj0 : j = 0 := by omega
          subst hj0; decide) (by decide)
    simpa using h
  · have h := (runner_fail_fast
      ⟨"atlassian/default-image:3", [⟨"build", ["make"]⟩, ⟨"deploy", ["make deploy"]⟩]⟩
      (fun _ => (0, "ok")) (by decide)).2
      (by intro j hj; decide)
    simpa using h

/-- Counterexample to C9: a definition containing a step with an empty
command list is **not** rejected by validation — `run_pipeline` provisions
a container for it (which runs an empty `set -e` script and exits 0) and
the run reports success, so it neither fails validation nor returns an
unsuccessful result before provisioning. -/
theorem runner_empty_script_runs :
    (run_pipeline ⟨"atlassian/default-image:3", [⟨"noop", []⟩]⟩
      (fun _ => (0, ""))).1.success = true ∧
    (run_pipeline ⟨"atlassian/default-image:3", [⟨"noop", []⟩]⟩
      (fun _ => (0, ""))).2 = 1 := by
  exact ⟨rfl, rfl⟩

/-- C9 (amended).  A pipeline definition with zero steps fails validation:
`run_pipeline` returns an unsuccessful result with the validation error and
provisions no container.  (A step with an *empty* command list is not
rejected: the code runs it in a container like any other step, see the
counterexample.) -/
theorem runner_rejects_empty_definition (image : String)
    (exec : Nat → Nat × String) :
    run_pipeline ⟨image, []⟩ exec =
      ({ success := false, output := "",
         error := some "No default pipeline defined" }, 0) := by
  rfl

/-! ## Execution records: `models.py`

The fields of `PipelineExecution` touched by the trigger route and the
poller.  Timestamps are opaque strings supplied by the caller (the wall
clock oracle). -/

/-- The `PipelineExecution` row (`models.py`, lines 108–136), restricted to
the fields written by `trigger_pipeline_execution` and
`stream_pipeline_logs`. -/
structure PipelineExecution where
  pipeline_id : Nat
  status : String
  trigger_type : String
  bitbucket_build_number : Option Nat
  bitbucket_pipeline_uuid : Option String
  logs : Option String
  error_message : Option String
  started_at : Option String
  completed_at : Option String
  duration_seconds : Option Nat
deriving Repr, DecidableEq

/-- `handle_subscribe_logs` (websocket_handlers.py, line 59) starts the
background streaming task for an execution iff
`execution.status in ['BUILDING', 'TESTING', 'DEPLOYING']`. -/
def startsPoller (e : PipelineExecution) : Bool :=
  ["BUILDING", "TESTING", "DEPLOYING"].contains e.status

/-! ## Remote trigger with retry: `trigger_pipeline_execution`
(`routes/pipelines.py`, lines 329–441) -/

/-- The dict returned by `BitbucketService.trigger_pipeline`
(`bitbucket_service.py`, lines 198–203). -/
structure TriggerApiResult where
  uuid : String
  build_number : Nat
  state : String
  created_on : String
deriving Repr, DecidableEq

/-- Everything observable about one call of `trigger_pipeline_execution`:
the `PipelineExecution` row it adds, the mirrored `Pipeline.status` /
`Pipeline.error_message`, the `time.sleep` durations in order, the number
of `trigger_pipeline` calls made, and whether the route answered 200
(`ok = true`) or 500. -/
structure TrigOutcome where
  execution : PipelineExecution
  pipelineStatus : String
  pipelineError : Option String
  waits : List Nat
  attempts : Nat
  ok : Bool
deriving Repr, DecidableEq

/-- The execution row added on a successful trigger (lines 375–384). -/
def buildingExecution (pipeline_id : Nat) (result : TriggerApiResult)
    (now : String) : PipelineExecution :=
  { pipeline_id := pipeline_id
    status := "BUILDING"
    trigger_type := "manual"
    bitbucket_build_number := some result.build_number
    bitbucket_pipeline_uuid := some result.uuid
    logs := none
    error_message := none
    started_at := some now
    completed_at := none
    duration_seconds := none }

/-- The execution row added after retries are exhausted (lines 417–425). -/
def exhaustedExecution (pipeline_id : Nat) (attempts : Nat) (last_error : String)
    (now : String) : PipelineExecution :=
  { pipeline_id := pipeline_id
    status := "FAILED"
    trigger_type := "manual"
    bitbucket_build_number := none
    bitbucket_pipeline_uuid := none
    logs := none
    error_message := some ("Failed to trigger pipeline after " ++
      toString attempts ++ " attempts: " ++ last_error)
    started_at := some now
    completed_at := some now
    duration_seconds := none }

/-- The `while retry_count <= (max_retries if enable_retry else 0)` loop of
`trigger_pipeline_execution` (lines 366–437).  `attempt k` is the Bitbucket
API oracle for the `k`-th `trigger_pipeline` call (`.error e` models the
exception).  The while-condition holds whenever the loop head is reached
(it holds for `retry_count = 0`, and the only re-entry is the backoff
branch, which has just checked `rc ≤ max_retries ∧ enable_retry`), so the
trailing `'Unexpected error in pipeline trigger'` return is dead code and
the loop is modelled by this recursion. -/
def triggerLoop (attempt : Nat → Except String TriggerApiResult)
    (enable_retry : Bool) (max_retries : Nat) (now : String)
    (pipeline_id : Nat) (retry_count : Nat) (_last_error : String)
    (waits : List Nat) : TrigOutcome :=
  match attempt retry_count with
  | .ok result =>
    { execution := buildingExecution pipeline_id result now
      pipelineStatus := "BUILDING"
      pipelineError := none
      waits := waits
      attempts := retry_count + 1
      ok := true }
  | .error e =>
    let rc := retry_count + 1
    if h : rc ≤ max_retries ∧ enable_retry = true then
      triggerLoop attempt enable_retry max_retries now pipeline_id rc e
        (waits ++ [2 ^ rc])
    else
      { execution := exhaustedExecution pipeline_id rc e now
        pipelineStatus := "FAILED"
        pipelineError := some e
        waits := waits
        attempts := rc
        ok := false }
termination_by max_retries + 1 - retry_count
decreasing_by
  simp_wf
  omega

/-- `trigger_pipeline_execution`: the loop entered with `retry_count = 0`,
`last_error = None` (never read before first assignment) and no waits. -/
def trigger_pipeline_execution (attempt : Nat → Except String TriggerApiResult)
    (enable_retry : Bool) (max_retries : Nat) (now : String)
    (pipeline_id : Nat) : TrigOutcome :=
  triggerLoop attempt enable_retry max_retries now pipeline_id 0 "" []

/-! ### Trigger lemmas -/

lemma triggerLoop_ok {attempt : Nat → Except String TriggerApiResult}
    {enable_retry : Bool} {max_retries : Nat} {now : String} {pid : Nat}
    {r : Nat} {le : String} {ws : List Nat} {result : TriggerApiResult}
    (h : attempt r = Except.ok result) :
    triggerLoop attempt enable_retry max_retries now pid r le ws =
      { execution := buildingExecution pid result now
        pipelineStatus := "BUILDING"
        pipelineError := none
        waits := ws
        attempts := r + 1
        ok := true } := by
  unfold triggerLoop
  rw [h]

lemma triggerLoop_error_stop {attempt : Nat → Except String TriggerApiResult}
    {enable_retry : Bool} {max_retries : Nat} {now : String} {pid : Nat}
    {r : Nat} {le : String} {ws : List Nat} {e : String}
    (h : attempt r = Except.error e)
    (hc : ¬(r + 1 ≤ max_retries ∧ enable_retry = true)) :
    triggerLoop attempt enable_retry max_retries now pid r le ws =
      { execution := exhaustedExecution pid (r + 1) e now
        pipelineStatus := "FAILED"
        pipelineError := some e
        waits := ws
        attempts := r + 1
        ok := false } := by
  unfold triggerLoop
  rw [h]
  simp only [dif_neg hc]

lemma triggerLoop_error_cont {attempt : Nat → Except String TriggerApiResult}
    {enable_retry : Bool} {max_retries : Nat} {now : String} {pid : Nat}
    {r : Nat} {le : String} {ws : List Nat} {e : String}
    (h : attempt r = Except.error e)
    (hc : r + 1 ≤ max_retries ∧ enable_retry = true) :
    triggerLoop attempt enable_retry max_retries now pid r le ws =
      triggerLoop attempt enable_retry max_retries now pid (r + 1) e
        (ws ++ [2 ^ (r + 1)]) := by
  conv_lhs => rw [triggerLoop]
  rw [h]
  simp only [dif_pos hc]

lemma triggerLoop_all_fail {attempt : Nat → Except String TriggerApiResult}
    {err : Nat → String} {max_retries : Nat} {now : String} {pid : Nat}
    (hfail : ∀ k, k ≤ max_retries → attempt k = Except.error (err k)) :
    ∀ (n r : Nat), r + n = max_retries → ∀ (le : String) (ws : List Nat),
      triggerLoop attempt true max_retries now pid r le ws =
        { execution := exhaustedExecution pid (max_retries + 1) (err max_retries) now
          pipelineStatus := "FAILED"
          pipelineError := some (err max_retries)
          waits := ws ++ (List.range n).map (fun i => 2 ^ (r + 1 + i))
          attempts := max_retries + 1
          ok := false } := by
  intro n
  induction n with
  | zero =>
    intro r hr le ws
    have hr2 : r = max_retries := by omega
    rw [triggerLoop_error_stop (hfail r (by omega))
      (fun hcc => absurd hcc.1 (by omega))]
    rw [hr2]
    simp
  | succ n ih =>
    intro r hr le ws
    rw [triggerLoop_error_cont (hfail r (by omega)) ⟨by omega, rfl⟩]
    rw [ih (r + 1) (by omega) (err r) (ws ++ [2 ^ (r + 1)])]
    have hw : (ws ++ [2 ^ (r + 1)]) ++
        (List.range n).map (fun i => 2 ^ (r + 1 + 1 + i)) =
        ws ++ (List.range (n + 1)).map (fun i => 2 ^ (r + 1 + i)) := by
      rw [List.range_succ_eq_map, List.map_cons, List.map_map]
      have hfun : ((fun i => 2 ^ (r + 1 + i)) ∘ Nat.succ) =
          fun i => 2 ^ (r + 1 + 1 + i) := by
        funext i
        simp only [Function.comp_apply]
        congr 1
        omega
      rw [hfun]
      simp [List.append_assoc]
    rw [hw]

lemma triggerLoop_outcome_cases (attempt : Nat → Except String TriggerApiResult)
    (enable_retry : Bool) (max_retries : Nat) (now : String) (pid : Nat) :
    ∀ (n r : Nat) (le : String) (ws : List Nat), max_retries + 1 - r ≤ n →
      (let o := triggerLoop attempt enable_retry max_retries now pid r le ws
       (o.ok = true ∧ o.execution.status = "BUILDING" ∧
          o.execution.completed_at = none) ∨
       (o.ok = false ∧ o.execution.status = "FAILED" ∧
          o.execution.completed_at = some now)) := by
  intro n
  induction n with
  | zero =>
    intro r le ws hn
    cases hatt : attempt r with
    | ok result =>
      rw [triggerLoop_ok hatt]
      exact Or.inl ⟨rfl, rfl, rfl⟩
    | error e =>
      rw [triggerLoop_error_stop hatt (fun hcc => absurd hcc.1 (by omega))]
      exact Or.inr ⟨rfl, rfl, rfl⟩
  | succ n ih =>
    intro r le ws hn
    cases hatt : attempt r with
    | ok result =>
      rw [triggerLoop_ok hatt]
      exact Or.inl ⟨rfl, rfl, rfl⟩
    | error e =>
      by_cases hc : r + 1 ≤ max_retries ∧ enable_retry = true
      · rw [triggerLoop_error_cont hatt hc]
        exact ih (r + 1) e (ws ++ [2 ^ (r + 1)]) (by omega)
      · rw [triggerLoop_error_stop hatt hc]
        exact Or.inr ⟨rfl, rfl, rfl⟩

/-- `((List.range n).map f).sum = ∑ i ∈ Finset.range n, f i`. -/
lemma list_range_map_sum (f : Nat → Nat) :
    ∀ n : Nat, ((List.range n).map f).sum = ∑ i ∈ Finset.range n, f i := by
  intro n
  induction n with
  | zero => rfl
  | succ n ih =>
    rw [List.range_succ, List.map_append, List.sum_append,
      Finset.sum_range_succ, ih]
    simp

/-- C2.  For a trigger call in which every attempt raises: with retry
enabled and a given `max_retries`, exactly `max_retries + 1` attempts are
made and the backoff waits are `2^1, 2^2, …, 2^max_retries` seconds
(`2^attempt` after the `attempt`-th failure), so their sum is
`∑ 2^(i+1)`; with retry disabled exactly one attempt is made and no wait
occurs. -/
theorem trigger_retry_schedule (attempt : Nat → Except String TriggerApiResult)
    (err : Nat → String) (max_retries : Nat) (now : String) (pid : Nat)
    (hfail : ∀ k, k ≤ max_retries → attempt k = Except.error (err k)) :
    ((trigger_pipeline_execution attempt true max_retries now pid).attempts =
        max_retries + 1 ∧
      (trigger_pipeline_execution attempt true max_retries now pid).waits =
        (List.range max_retries).map (fun i => 2 ^ (i + 1)) ∧
      (trigger_pipeline_execution attempt true max_retries now pid).waits.sum =
        ∑ i ∈ Finset.range max_retries, 2 ^ (i + 1)) ∧
    ((trigger_pipeline_execution attempt false max_retries now pid).attempts = 1 ∧
      (trigger_pipeline_execution attempt false max_retries now pid).waits = []) := by
  constructor
  · rw [trigger_pipeline_execution,
      triggerLoop_all_fail hfail max_retries 0 (by omega) "" []]
    have hmap : (List.range max_retries).map (fun i => 2 ^ (0 + 1 + i)) =
        (List.range max_retries).map (fun i => 2 ^ (i + 1)) := by
      apply List.map_congr_left
      intro i _
      congr 1
      omega
    refine ⟨rfl, ?_, ?_⟩
    · simpa using hmap
    · simp only [List.nil_append, hmap]
      exact list_range_map_sum (fun i => 2 ^ (i + 1)) max_retries
  · rw [trigger_pipeline_execution,
      triggerLoop_error_stop (hfail 0 (Nat.zero_le _))
        (fun hcc => by simpa using hcc.2)]
    exact ⟨rfl, rfl⟩

/-- Witness for C2: an attempt oracle that always raises, with
`max_retries = 3`: four attempts, waits `[2, 4, 8]` summing to 14; with
retry disabled, one attempt and no wait. -/
theorem trigger_retry_schedule_witness :
    ((trigger_pipeline_execution (fun _ => Except.error "api down") true 3 "t0" 7).attempts = 4 ∧
      (trigger_pipeline_execution (fun _ => Except.error "api down") true 3 "t0" 7).waits = [2, 4, 8] ∧
      (trigger_pipeline_execution (fun _ => Except.error "api down") true 3 "t0" 7).waits.sum = 14) ∧
    ((trigger_pipeline_execution (fun _ => Except.error "api down") false 3 "t0" 7).attempts = 1 ∧
      (trigger_pipeline_execution (fun _ => Except.error "api down") false 3 "t0" 7).waits = []) := by
  have h := trigger_retry_schedule (fun _ => Except.error "api down")
    (fun _ => "api down") 3 "t0" 7 (fun k _ => rfl)
  refine ⟨⟨h.1.1, ?_, ?_⟩, h.2⟩
  · rw [h.1.2.1]; decide
  · rw [h.1.2.2]; decide

/-- C5.  If every trigger attempt fails and retries are exhausted (or retry
is disabled), a terminal `FAILED` `ExecutionRun` is created, its
`error_message` contains the last error and the number of attempts made,
the HTTP route answers 500, and no poller is started for it
(`handle_subscribe_logs` only starts the streaming task for
BUILDING/TESTING/DEPLOYING executions); moreover, for any attempt oracle,
a successful trigger is the only path producing a live (non-terminal)
`ExecutionRun` — `ok = true` gives `BUILDING` with no `completed_at` and a
poller, `ok = false` gives terminal `FAILED`. -/
theorem trigger_exhaustion_no_poller (attempt : Nat → Except String TriggerApiResult)
    (err : Nat → String) (enable_retry : Bool) (max_retries : Nat)
    (now : String) (pid : Nat)
    (hfail : ∀ k, k ≤ max_retries → attempt k = Except.error (err k)) :
    ((trigger_pipeline_execution attempt enable_retry max_retries now pid).execution.status = "FAILED" ∧
      (trigger_pipeline_execution attempt enable_retry max_retries now pid).ok = false ∧
      (trigger_pipeline_execution attempt enable_retry max_retries now pid).execution.completed_at = some now ∧
      (trigger_pipeline_execution attempt enable_retry max_retries now pid).attempts =
        (if enable_retry then max_retries + 1 else 1) ∧
      (trigger_pipeline_execution attempt enable_retry max_retries now pid).execution.error_message =
        some ("Failed to trigger pipeline after " ++
          toString (if enable_retry then max_retries + 1 else 1) ++ " attempts: " ++
          err (if enable_retry then max_retries else 0)) ∧
      startsPoller (trigger_pipeline_execution attempt enable_retry max_retries now pid).execution = false) ∧
    (∀ (attempt2 : Nat → Except String TriggerApiResult),
      ((trigger_pipeline_execution attempt2 enable_retry max_retries now pid).ok = true →
        (trigger_pipeline_execution attempt2 enable_retry max_retries now pid).execution.status = "BUILDING" ∧
        (trigger_pipeline_execution attempt2 enable_retry max_retries now pid).execution.completed_at = none ∧
        startsPoller (trigger_pipeline_execution attempt2 enable_retry max_retries now pid).execution = true) ∧
      ((trigger_pipeline_execution attempt2 enable_retry max_retries now pid).ok = false →
        (trigger_pipeline_execution attempt2 enable_retry max_retries now pid).execution.status = "FAILED" ∧
        (trigger_pipeline_execution attempt2 enable_retry max_retries now pid).execution.completed_at = some now ∧
        startsPoller (trigger_pipeline_execution attempt2 enable_retry max_retries now pid).execution = false)) := by
  constructor
  · cases enable_retry with
    | true =>
      rw [trigger_pipeline_execution,
        triggerLoop_all_fail hfail max_retries 0 (by omega) "" []]
      exact ⟨rfl, rfl, rfl, rfl, rfl, rfl⟩
    | false =>
      rw [trigger_pipeline_execution,
        triggerLoop_error_stop (hfail 0 (Nat.zero_le _))
          (fun hcc => by simpa using hcc.2)]
      exact ⟨rfl, rfl, rfl, rfl, rfl, rfl⟩
  · intro attempt2
    have hcases := triggerLoop_outcome_cases attempt2 enable_retry max_retries now pid
      (max_retries + 1) 0 "" [] (by omega)
    rw [trigger_pipeline_execution]
    rcases hcases with h | h
    · refine ⟨fun _ => ⟨h.2.1, h.2.2, ?_⟩, fun hko => absurd h.1 (by rw [hko]; simp)⟩
      rw [startsPoller, h.2.1]
      decide
    · refine ⟨fun hok => absurd h.1 (by rw [hok]; simp), fun _ => ⟨h.2.1, h.2.2, ?_⟩⟩
      rw [startsPoller, h.2.1]
      decide

/-- Witness for C5: four failing attempts with `max_retries = 3` produce a
committed terminal FAILED record with the attempt count and last error in
`error_message`, and no poller is started for it. -/
theorem trigger_exhaustion_no_poller_witness :
    (trigger_pipeline_execution (fun _ => Except.error "502 bad gateway") true 3 "t1" 9).execution.status = "FAILED" ∧
    (trigger_pipeline_execution (fun _ => Except.error "502 bad gateway") true 3 "t1" 9).execution.completed_at = some "t1" ∧
    (trigger_pipeline_execution (fun _ => Except.error "502 bad gateway") true 3 "t1" 9).attempts = 4 ∧
    (trigger_pipeline_execution (fun _ => Except.error "502 bad gateway") true 3 "t1" 9).execution.error_message =
      some "Failed to trigger pipeline after 4 attempts: 502 bad gateway" ∧
    startsPoller (trigger_pipeline_execution (fun _ => Except.error "502 bad gateway") true 3 "t1" 9).execution = false := by
  have h := trigger_exhaustion_no_poller (fun _ => Except.error "502 bad gateway")
    (fun _ => "502 bad gateway") true 3 "t1" 9 (fun k _ => rfl)
  refine ⟨h.1.1, h.1.2.2.1, by simpa using h.1.2.2.2.1, ?_, h.1.2.2.2.2.2⟩
  have hmsg := h.1.2.2.2.2.1
  simpa using hmsg

/-! ## Status poller / diff streamer: `stream_pipeline_logs`
(`websocket_handlers.py`, lines 79–222)

The Bitbucket API is the oracle `fetch : Nat → Except String LogsData`
(`get_pipeline_logs` for the `k`-th poll; `.error e` models an exception
whose `str` is `e`).  `time.sleep(5)` has no observable effect on the
modelled state and is elided; `time.strftime`/`time.time` are the `now`
oracle. -/

/-- One entry of `logs_data['steps']`, as assembled by
`BitbucketService.get_pipeline_logs` (bitbucket_service.py, lines 246–266). -/
structure StepInfo where
  name : String
  state : String
  started_on : Option String
  completed_on : Option String
  duration_in_seconds : Option Nat
  log : Option String
deriving Repr, DecidableEq

/-- The dict returned by `get_pipeline_logs` (bitbucket_service.py,
lines 268–276). -/
structure LogsData where
  uuid : String
  build_number : Nat
  state : String
  created_on : String
  completed_on : Option String
  duration_in_seconds : Option Nat
  steps : List StepInfo
deriving Repr, DecidableEq

/-- Lookup in the `last_step_states` dict. -/
def dictGet (m : List (String × String)) (k : String) : Option String :=
  (m.find? (fun p => p.1 == k)).map (fun p => p.2)

/-- `last_step_states[step_name] = step_state`: dict update — replace the
entry in place when the key is present, append otherwise (Python dicts
keep insertion order). -/
def dictSet : List (String × String) → String → String →
    List (String × String)
  | [], k, v => [(k, v)]
  | p :: m, k, v => if p.1 == k then (k, v) :: m else p :: dictSet m k v

/-- One element of the `steps_with_changes` list built at lines 138–149. -/
structure EmittedStep where
  name : String
  state : String
  duration_seconds : Option Nat
  log_preview : Option String
  log_full : Option String
  has_log : Bool
  started_on : Option String
  completed_on : Option String
  is_new : Bool
  state_changed : Bool
deriving Repr, DecidableEq

/-- Python truthiness of `step['log']` (`None` and `''` are falsy). -/
def truthyStr : Option String → Bool
  | none => false
  | some s => !(s == "")

/-- The dict appended to `steps_with_changes` for step `s` when the
last-seen map is `m` (lines 138–149): `is_new` is
`step_name not in last_step_states`, `state_changed` is
`last_step_states.get(step_name) != step_state`, the log preview is the
first 1000 characters when the log is truthy. -/
def mkEmitted (s : StepInfo) (m : List (String × String)) : EmittedStep :=
  { name := s.name
    state := s.state
    duration_seconds := s.duration_in_seconds
    log_preview :=
      match s.log with
      | some l => if l == "" then none else some (l.take 1000)
      | none => none
    log_full := s.log
    has_log := truthyStr s.log
    started_on := s.started_on
    completed_on := s.completed_on
    is_new := (dictGet m s.name).isNone
    state_changed := !(dictGet m s.name == some s.state) }

/-- The `for step in logs_data['steps']` loop of lines 132–150: a step is
appended iff `step_name not in last_step_states or
last_step_states[step_name] != step_state`, and the map is updated at the
appended steps; returns the emitted list and the updated map. -/
def computeChanges : List StepInfo → List (String × String) →
    List EmittedStep × List (String × String)
  | [], m => ([], m)
  | s :: rest, m =>
    if dictGet m s.name = some s.state then
      computeChanges rest m
    else
      let r := computeChanges rest (dictSet m s.name s.state)
      (mkEmitted s m :: r.1, r.2)

/-- `current_status in ['COMPLETED', 'FAILED', 'STOPPED', 'ERROR']`
(lines 123 and 166). -/
def remoteTerminal (s : String) : Bool :=
  ["COMPLETED", "FAILED", "STOPPED", "ERROR"].contains s

/-- The per-step block of the final transcript (lines 183–186):
`=== name ===\nStatus: state\nDuration: ds\nlog-or-placeholder`, with
`step.get('duration_in_seconds', 0)` and `step['log'] or 'No log
available'`. -/
def stepLogBlock (s : StepInfo) : String :=
  "=== " ++ s.name ++ " ===\nStatus: " ++ s.state ++ "\nDuration: " ++
    toString (s.duration_in_seconds.getD 0) ++ "s\n" ++
    (match s.log with
     | some l => if l == "" then "No log available" else l
     | none => "No log available")

/-- `full_log = '\n\n'.join(...)` over all steps (lines 183–186). -/
def fullTranscript (steps : List StepInfo) : String :=
  String.intercalate "\n\n" (steps.map stepLogBlock)

/-- The events `socketio.emit`-ted to the pipeline's room, in order.
`log_update` is tagged with the loop iteration at which it was emitted. -/
inductive PollEvent where
  | status_change (status previous : String)
  | log_update (iteration : Nat) (steps : List EmittedStep)
      (overall : String) (total_steps : Nat)
  | final_status (status bitbucket_status : String)
  | log_error (msg : String)
  | log_timeout
deriving Repr, DecidableEq

/-- The mutable state of one `stream_pipeline_logs` task: the
`PipelineExecution` row, the mirrored `Pipeline.status`, the loop locals
`last_status` and `last_step_states`, the emitted events, and the number of
`get_pipeline_logs` calls made. -/
structure PollState where
  execution : PipelineExecution
  pipelineStatus : String
  last_status : String
  last_step_states : List (String × String)
  events : List PollEvent
  fetchCount : Nat
deriving Repr, DecidableEq

/-- Lines 107–128: on a status change, emit `pipeline_status`, update
`last_status`, write the status through to the execution row, and when the
new remote status is terminal also set `completed_at` (and the duration
when truthy). -/
def statusChangeUpdate (ld : LogsData) (now : String) (st : PollState) :
    PollState :=
  if ld.state ≠ st.last_status then
    { st with
        events := st.events ++ [PollEvent.status_change ld.state st.last_status]
        last_status := ld.state
        execution :=
          if remoteTerminal ld.state then
            { st.execution with
                status := ld.state
                completed_at := some now
                duration_seconds :=
                  match ld.duration_in_seconds with
                  | some d => if d ≠ 0 then some d else st.execution.duration_seconds
                  | none => st.execution.duration_seconds }
          else
            { st.execution with status := ld.state } }
  else st

/-- Lines 166–195: terminal detection.  `COMPLETED` maps to internal
`SUCCESS`, every other terminal remote state to `FAILED`; the final
`pipeline_status` notification is emitted, the full transcript and final
status are persisted to the execution row, and the owning pipeline's
status is mirrored. -/
def finalUpdate (ld : LogsData) (st : PollState) : PollState :=
  { st with
      events := st.events ++
        [PollEvent.final_status (if ld.state = "COMPLETED" then "SUCCESS" else "FAILED") ld.state]
      execution :=
        { st.execution with
            logs := some (fullTranscript ld.steps)
            status := if ld.state = "COMPLETED" then "SUCCESS" else "FAILED" }
      pipelineStatus := if ld.state = "COMPLETED" then "SUCCESS" else "FAILED" }

/-- One iteration of the `while` body (lines 99–213): the fetch, the
status-change notification, the step diff, the conditional `pipeline_logs`
emit (`if steps_with_changes or iteration == 0`), terminal detection, and
the `except` handler (lines 200–213) which emits `log_error`, records the
error and `FAILED` on the row, and breaks.  The returned boolean is true
iff the loop continues. -/
def pollBody (res : Except String LogsData) (iteration : Nat) (now : String)
    (st : PollState) : PollState × Bool :=
  match res with
  | Except.error e =>
    ({ st with
        events := st.events ++ [PollEvent.log_error e]
        execution := { st.execution with error_message := some e, status := "FAILED" }
        fetchCount := st.fetchCount + 1 }, false)
  | Except.ok ld =>
    let st1 := statusChangeUpdate ld now
      { st with fetchCount := st.fetchCount + 1 }
    let r := computeChanges ld.steps st1.last_step_states
    let st2 := { st1 with last_step_states := r.2 }
    let st3 :=
      if r.1 ≠ [] ∨ iteration = 0 then
        { st2 with events := st2.events ++
            [PollEvent.log_update iteration r.1 ld.state ld.steps.length] }
      else st2
    if remoteTerminal ld.state then
      (finalUpdate ld st3, false)
    else
      (st3, true)

/-- The `while iteration < max_iterations` loop plus the trailing
`if iteration >= max_iterations` timeout emit (lines 98–222), as structural
recursion on the remaining iteration budget `fuel = max_iterations -
iteration`: the loop body runs while fuel remains; when the budget is
exhausted without a `break`, exactly one `log_timeout` is emitted (a
`break` leaves `iteration < max_iterations`, so no timeout is emitted on
those paths). -/
def pollLoopAux (fetch : Nat → Except String LogsData) (now : String) :
    Nat → Nat → PollState → PollState
  | _, 0, st => { st with events := st.events ++ [PollEvent.log_timeout] }
  | iteration, fuel + 1, st =>
    let r := pollBody (fetch iteration) iteration now st
    if r.2 then pollLoopAux fetch now (iteration + 1) fuel r.1 else r.1

/-- The initial poll state (lines 93–96): `last_status = execution.status`,
empty `last_step_states`, nothing emitted. -/
def initPollState (execution : PipelineExecution) (pipelineStatus : String) :
    PollState :=
  { execution := execution
    pipelineStatus := pipelineStatus
    last_status := execution.status
    last_step_states := []
    events := []
    fetchCount := 0 }

/-- `stream_pipeline_logs` after its entry guard (a present token and
pipeline uuid), with `max_iterations = 120` as in the source. -/
def stream_pipeline_logs (fetch : Nat → Except String LogsData)
    (execution : PipelineExecution) (pipelineStatus : String) (now : String)
    (max_iterations : Nat := 120) : PollState :=
  pollLoopAux fetch now 0 max_iterations (initPollState execution pipelineStatus)

/-! ### Dict and diff lemmas -/

lemma dictGet_dictSet_self (m : List (String × String)) (k v : String) :
    dictGet (dictSet m k v) k = some v := by
  induction m with
  | nil => simp [dictGet, dictSet]
  | cons p m ih =>
    by_cases hp : p.1 = k
    · simp [dictGet, dictSet, hp]
    · simpa [dictGet, dictSet, hp] using ih

lemma dictGet_dictSet_ne (m : List (String × String)) (k v k2 : String)
    (h : k2 ≠ k) : dictGet (dictSet m k v) k2 = dictGet m k2 := by
  have hk : (k == k2) = false := by
    simpa using fun hh => h hh.symm
  induction m with
  | nil => simp [dictGet, dictSet, hk]
  | cons p m ih =>
    by_cases hp : p.1 = k
    · have hq : (p.1 == k2) = false := by
        rw [hp]; exact hk
      simp [dictGet, dictSet, hp, hk, hq]
    · by_cases hq : p.1 = k2
      · simp [dictGet, dictSet, hp, hq, h]
      · simpa [dictGet, dictSet, hp, hq] using ih

lemma computeChanges_mem {steps : List StepInfo}
    (hnd : (steps.map StepInfo.name).Nodup) :
    ∀ (m : List (String × String)), ∀ es ∈ (computeChanges steps m).1,
      ∃ s ∈ steps, es.name = s.name ∧ es.state = s.state ∧
        dictGet m s.name ≠ some s.state := by
  induction steps with
  | nil => intro m es hes; simp [computeChanges] at hes
  | cons s rest ih =>
    rw [List.map_cons, List.nodup_cons] at hnd
    intro m es hes
    by_cases hc : dictGet m s.name = some s.state
    · rw [computeChanges, if_pos hc] at hes
      obtain ⟨s2, hmem, hn, hst, hcond⟩ := ih hnd.2 m es hes
      exact ⟨s2, List.mem_cons_of_mem _ hmem, hn, hst, hcond⟩
    · rw [computeChanges, if_neg hc] at hes
      rcases List.mem_cons.mp hes with heq | htail
      · exact ⟨s, List.mem_cons_self _ _, by rw [heq]; rfl, by rw [heq]; rfl, hc⟩
      · obtain ⟨s2, hmem, hn, hst, hcond⟩ := ih hnd.2 (dictSet m s.name s.state) es htail
        have hne : s2.name ≠ s.name := by
          intro hh
          exact hnd.1 (hh ▸ List.mem_map_of_mem StepInfo.name hmem)
        rw [dictGet_dictSet_ne m s.name s.state s2.name hne] at hcond
        exact ⟨s2, List.mem_cons_of_mem _ hmem, hn, hst, hcond⟩

lemma computeChanges_covers :
    ∀ (steps : List StepInfo) (m : List (String × String)) (s : StepInfo),
      s ∈ steps → dictGet m s.name = none →
      ∃ es ∈ (computeChanges steps m).1, es.name = s.name := by
  intro steps
  induction steps with
  | nil => intro m s hs; simp at hs
  | cons t rest ih =>
    intro m s hs hnone
    rcases List.mem_cons.mp hs with heq | htail
    · subst heq
      have hc : ¬(dictGet m s.name = some s.state) := by
        rw [hnone]; exact fun hh => Option.noConfusion hh
      rw [computeChanges, if_neg hc]
      exact ⟨mkEmitted s m, List.mem_cons_self _ _, rfl⟩
    · by_cases hc : dictGet m t.name = some t.state
      · rw [computeChanges, if_pos hc]
        exact ih m s htail hnone
      · rw [computeChanges, if_neg hc]
        by_cases hnames : s.name = t.name
        · exact ⟨mkEmitted t m, List.mem_cons_self _ _, hnames.symm⟩
        · have hnone2 : dictGet (dictSet m t.name t.state) s.name = none := by
            rw [dictGet_dictSet_ne m t.name t.state s.name hnames, hnone]
          obtain ⟨es, hmem, hn⟩ := ih (dictSet m t.name t.state) s htail hnone2
          exact ⟨es, List.mem_cons_of_mem _ hmem, hn⟩

/-- C3.  On a poll iteration, with `m` the last-seen per-step state map
(`last_step_states`) and distinct step names in the fetch, the emitted
update includes a step only if it is not present in `m` or its state
differs from the recorded one; a step whose state is unchanged since the
previous fetch is never included. -/
theorem poller_diff_only_changed (steps : List StepInfo)
    (m : List (String × String)) (hnd : (steps.map StepInfo.name).Nodup) :
    (∀ es ∈ (computeChanges steps m).1,
      ∃ s ∈ steps, es.name = s.name ∧ es.state = s.state ∧
        dictGet m s.name ≠ some s.state) ∧
    (∀ s ∈ steps, dictGet m s.name = some s.state →
      ∀ es ∈ (computeChanges steps m).1, es.name ≠ s.name) := by
  refine ⟨computeChanges_mem hnd m, ?_⟩
  intro s hs hunch es hes hname
  obtain ⟨s2, hs2, hn, hst, hcond⟩ := computeChanges_mem hnd m es hes
  have heq : s2 = s := by
    apply List.inj_on_of_nodup_map hnd hs2 hs
    rw [← hname, hn]
  rw [heq] at hcond
  exact hcond hunch

/-- Witness for C3: with `build` recorded as BUILDING and now COMPLETED
(changed) and `test` recorded as BUILDING and still BUILDING (unchanged),
no emitted step is named `test`. -/
theorem poller_diff_only_changed_witness :
    ((computeChanges
      [⟨"build", "COMPLETED", none, none, none, none⟩,
       ⟨"test", "BUILDING", none, none, none, none⟩]
      [("build", "BUILDING"), ("test", "BUILDING")]).1.all
        (fun es => es.name != "test")) = true := by
  have h := (poller_diff_only_changed
    [⟨"build", "COMPLETED", none, none, none, none⟩,
     ⟨"test", "BUILDING", none, none, none, none⟩]
    [("build", "BUILDING"), ("test", "BUILDING")] (by decide)).2
    ⟨"test", "BUILDING", none, none, none, none⟩ (by decide) (by decide)
  rw [List.all_eq_true]
  intro es hes
  simpa using h es hes

/-! ### Poll-loop lemmas -/

def isFinalEvent : PollEvent → Bool
  | PollEvent.final_status _ _ => true
  | _ => false

def isTimeoutEvent : PollEvent → Bool
  | PollEvent.log_timeout => true
  | _ => false

def isErrorEvent : PollEvent → Bool
  | PollEvent.log_error _ => true
  | _ => false

/-- Number of events matching `pred` among `evs`. -/
def countEvents (pred : PollEvent → Bool) (evs : List PollEvent) : Nat :=
  (evs.filter pred).length

lemma countEvents_append (pred : PollEvent → Bool) (a b : List PollEvent) :
    countEvents pred (a ++ b) = countEvents pred a + countEvents pred b := by
  simp [countEvents, List.filter_append]

/-- The `except` branch of the loop body, fully evaluated. -/
lemma pollBody_error (e : String) (it : Nat) (now : String) (st : PollState) :
    pollBody (Except.error e) it now st =
      ({ st with
          events := st.events ++ [PollEvent.log_error e]
          execution := { st.execution with error_message := some e, status := "FAILED" }
          fetchCount := st.fetchCount + 1 }, false) := rfl

/-- The loop body on a successful fetch of a non-terminal remote state,
fully evaluated (assuming the `execution.status = last_status` sync
invariant, which holds initially and is preserved). -/
lemma pollBody_ok_nonterminal (ld : LogsData) (it : Nat) (now : String)
    (st : PollState) (hnt : remoteTerminal ld.state = false)
    (hsync : st.execution.status = st.last_status) :
    pollBody (Except.ok ld) it now st =
      ({ execution := { st.execution with status := ld.state }
         pipelineStatus := st.pipelineStatus
         last_status := ld.state
         last_step_states := (computeChanges ld.steps st.last_step_states).2
         events := (st.events ++
            (if ld.state = st.last_status then []
             else [PollEvent.status_change ld.state st.last_status])) ++
            (if (computeChanges ld.steps st.last_step_states).1 ≠ [] ∨ it = 0 then
              [PollEvent.log_update it (computeChanges ld.steps st.last_step_states).1
                ld.state ld.steps.length]
             else [])
         fetchCount := st.fetchCount + 1 }, true) := by
  obtain ⟨ex, ps, ls, lss, evs, fc⟩ := st
  simp only at hsync
  by_cases hlog : (computeChanges ld.steps lss).1 ≠ [] ∨ it = 0
  · by_cases hch : ld.state = ls
    · have hnt2 : remoteTerminal ls = false := by rw [← hch]; exact hnt
      have hex : ({ ex with status := ls } : PipelineExecution) = ex := by
        rw [← hsync]
      simp [pollBody, statusChangeUpdate, hch, hnt2, hex, hlog]
    · simp [pollBody, statusChangeUpdate, hch, hnt, hlog]
  · by_cases hch : ld.state = ls
    · have hnt2 : remoteTerminal ls = false := by rw [← hch]; exact hnt
      have hex : ({ ex with status := ls } : PipelineExecution) = ex := by
        rw [← hsync]
      simp [pollBody, statusChangeUpdate, hch, hnt2, hex, hlog]
    · simp [pollBody, statusChangeUpdate, hch, hnt, hlog]

/-- The loop body on a successful fetch of a terminal remote state, fully
evaluated (the remote state differs from `last_status`, which holds
whenever the previous status was non-terminal). -/
lemma pollBody_ok_terminal (ld : LogsData) (it : Nat) (now : String)
    (st : PollState) (hterm : remoteTerminal ld.state = true)
    (hne : ld.state ≠ st.last_status) :
    pollBody (Except.ok ld) it now st =
      ({ execution :=
          { st.execution with
              status := if ld.state = "COMPLETED" then "SUCCESS" else "FAILED"
              completed_at := some now
              duration_seconds :=
                match ld.duration_in_seconds with
                | some d => if d ≠ 0 then some d else st.execution.duration_seconds
                | none => st.execution.duration_seconds
              logs := some (fullTranscript ld.steps) }
         pipelineStatus := if ld.state = "COMPLETED" then "SUCCESS" else "FAILED"
         last_status := ld.state
         last_step_states := (computeChanges ld.steps st.last_step_states).2
         events := ((st.events ++ [PollEvent.status_change ld.state st.last_status]) ++
            (if (computeChanges ld.steps st.last_step_states).1 ≠ [] ∨ it = 0 then
              [PollEvent.log_update it (computeChanges ld.steps st.last_step_states).1
                ld.state ld.steps.length]
             else [])) ++
            [PollEvent.final_status
              (if ld.state = "COMPLETED" then "SUCCESS" else "FAILED") ld.state]
         fetchCount := st.fetchCount + 1 }, false) := by
  obtain ⟨ex, ps, ls, lss, evs, fc⟩ := st
  simp only at hne
  by_cases hlog : (computeChanges ld.steps lss).1 ≠ [] ∨ it = 0
  · simp [pollBody, statusChangeUpdate, finalUpdate, hne, hterm, hlog]
  · simp [pollBody, statusChangeUpdate, finalUpdate, hne, hterm, hlog]

/-- `n` consecutive loop-body applications starting at iteration
`iteration` (the states the loop passes through while every fetch
continues it). -/
def iteratePoll (fetch : Nat → Except String LogsData) (now : String) :
    Nat → Nat → PollState → PollState
  | _, 0, st => st
  | iteration, n + 1, st =>
    iteratePoll fetch now (iteration + 1) n
      (pollBody (fetch iteration) iteration now st).1

/-- Every branch of the loop body only appends to the event log. -/
lemma pollBody_events_mono (res : Except String LogsData) (it : Nat)
    (now : String) (st : PollState) (ev : PollEvent) (h : ev ∈ st.events) :
    ev ∈ (pollBody res it now st).1.events := by
  cases res with
  | error e => simp [pollBody, h]
  | ok ld =>
    simp only [pollBody]
    by_cases hch : ld.state = st.last_status <;>
      by_cases hterm : remoteTerminal ld.state <;>
        simp [statusChangeUpdate, finalUpdate, hch, hterm, h] <;>
          split_ifs <;> simp [h]

/-- The loop only appends to the event log. -/
lemma pollLoopAux_events_mono (fetch : Nat → Except String LogsData)
    (now : String) :
    ∀ (fuel it : Nat) (st : PollState) (ev : PollEvent), ev ∈ st.events →
      ev ∈ (pollLoopAux fetch now it fuel st).events := by
  intro fuel
  induction fuel with
  | zero => intro it st ev h; simp [pollLoopAux, h]
  | succ fuel ih =>
    intro it st ev h
    rw [pollLoopAux]
    by_cases hc : (pollBody (fetch it) it now st).2 = true
    · rw [if_pos hc]
      exact ih (it + 1) _ ev (pollBody_events_mono (fetch it) it now st ev h)
    · rw [if_neg hc]
      exact pollBody_events_mono (fetch it) it now st ev h

/-- If the first `n` fetches from `iteration` succeed with non-terminal
states, the loop equals `n` body applications followed by the loop on the
remaining budget. -/
lemma pollLoopAux_skip (fetch : Nat → Except String LogsData) (now : String) :
    ∀ (n fuel iteration : Nat) (st : PollState), n ≤ fuel →
      (∀ k, k < n → ∃ ld, fetch (iteration + k) = Except.ok ld ∧
        remoteTerminal ld.state = false) →
      (∀ k (st2 : PollState), k < n →
        (pollBody (fetch (iteration + k)) (iteration + k) now st2).2 = true) →
      pollLoopAux fetch now iteration fuel st =
        pollLoopAux fetch now (iteration + n) (fuel - n)
          (iteratePoll fetch now iteration n st) := by
  intro n
  induction n with
  | zero => intro fuel it st _ _ _; rfl
  | succ n ih =>
    intro fuel it st hn hok hcont
    obtain ⟨fuel, rfl⟩ : ∃ f, fuel = f + 1 := ⟨fuel - 1, by omega⟩
    rw [pollLoopAux]
    have h0 := hcont 0 st (Nat.succ_pos _)
    simp only [Nat.add_zero] at h0
    rw [if_pos h0]
    have := ih fuel (it + 1) (pollBody (fetch it) it now st).1 (by omega)
      (by
        intro k hk
        have := hok (k + 1) (Nat.succ_lt_succ hk)
        simpa [Nat.add_assoc, Nat.add_comm 1 k] using this)
      (by
        intro k st2 hk
        have := hcont (k + 1) st2 (Nat.succ_lt_succ hk)
        simpa [Nat.add_assoc, Nat.add_comm 1 k] using this)
    rw [this]
    have harith : it + 1 + n = it + (n + 1) := by omega
    have hfuel : fuel - n = fuel + 1 - (n + 1) := by omega
    rw [harith, hfuel, iteratePoll]

/-- The body continues the loop on an ok non-terminal fetch. -/
lemma pollBody_ok_nonterminal_cont (ld : LogsData) (it : Nat) (now : String)
    (st : PollState) (hnt : remoteTerminal ld.state = false) :
    (pollBody (Except.ok ld) it now st).2 = true := by
  simp [pollBody, hnt]

/-- Frame facts about a run of consecutive continuing iterations: the sync
invariant and non-terminality of the status are preserved, the fields the
non-terminal body never writes are unchanged, the fetch count advances by
`n`, and no `final_status` / `log_timeout` / `log_error` event is
emitted. -/
lemma iteratePoll_facts (fetch : Nat → Except String LogsData) (now : String) :
    ∀ (n iteration : Nat) (st : PollState),
      (∀ k, k < n → ∃ ld, fetch (iteration + k) = Except.ok ld ∧
        remoteTerminal ld.state = false) →
      st.execution.status = st.last_status →
      remoteTerminal st.execution.status = false →
      (iteratePoll fetch now iteration n st).execution.status =
          (iteratePoll fetch now iteration n st).last_status ∧
      remoteTerminal (iteratePoll fetch now iteration n st).execution.status = false ∧
      (iteratePoll fetch now iteration n st).execution.completed_at =
          st.execution.completed_at ∧
      (iteratePoll fetch now iteration n st).execution.error_message =
          st.execution.error_message ∧
      (iteratePoll fetch now iteration n st).execution.logs = st.execution.logs ∧
      (iteratePoll fetch now iteration n st).pipelineStatus = st.pipelineStatus ∧
      (iteratePoll fetch now iteration n st).fetchCount = st.fetchCount + n ∧
      countEvents isFinalEvent (iteratePoll fetch now iteration n st).events =
          countEvents isFinalEvent st.events ∧
      countEvents isTimeoutEvent (iteratePoll fetch now iteration n st).events =
          countEvents isTimeoutEvent st.events ∧
      countEvents isErrorEvent (iteratePoll fetch now iteration n st).events =
          countEvents isErrorEvent st.events := by
  intro n
  induction n with
  | zero =>
    intro it st _ hsync hnt
    exact ⟨hsync, hnt, rfl, rfl, rfl, rfl, rfl, rfl, rfl, rfl⟩
  | succ n ih =>
    intro it st hok hsync hnt
    obtain ⟨ld, hld, hldnt⟩ := hok 0 (Nat.succ_pos _)
    simp only [Nat.add_zero] at hld
    have hbody := pollBody_ok_nonterminal ld it now st hldnt hsync
    have hsync2 : (pollBody (fetch it) it now st).1.execution.status =
        (pollBody (fetch it) it now st).1.last_status := by
      rw [hld, hbody]
    have hnt2 : remoteTerminal (pollBody (fetch it) it now st).1.execution.status = false := by
      rw [hld, hbody]
      exact hldnt
    have hrec := ih (it + 1) (pollBody (fetch it) it now st).1
      (by
        intro k hk
        have := hok (k + 1) (Nat.succ_lt_succ hk)
        simpa [Nat.add_assoc, Nat.add_comm 1 k] using this)
      hsync2 hnt2
    rw [iteratePoll]
    refine ⟨hrec.1, hrec.2.1, ?_, ?_, ?_, ?_, ?_, ?_, ?_, ?_⟩
    · rw [hrec.2.2.1, hld, hbody]
    · rw [hrec.2.2.2.1, hld, hbody]
    · rw [hrec.2.2.2.2.1, hld, hbody]
    · rw [hrec.2.2.2.2.2.1, hld, hbody]
    · rw [hrec.2.2.2.2.2.2.1, hld, hbody]
      simp
      omega
    · rw [hrec.2.2.2.2.2.2.2.1, hld, hbody]
      simp only [countEvents_append]
      have hz1 : countEvents isFinalEvent
          (if ld.state = st.last_status then []
           else [PollEvent.status_change ld.state st.last_status]) = 0 := by
        split_ifs with h1 <;> simp [countEvents, isFinalEvent]
      have hz2 : countEvents isFinalEvent
          (if (computeChanges ld.steps st.last_step_states).1 ≠ [] ∨ it = 0 then
            [PollEvent.log_update it (computeChanges ld.steps st.last_step_states).1
              ld.state ld.steps.length]
           else []) = 0 := by
        split_ifs with h1 <;> simp [countEvents, isFinalEvent]
      rw [hz1, hz2]
      omega
    · rw [hrec.2.2.2.2.2.2.2.2.1, hld, hbody]
      simp only [countEvents_append]
      have hz1 : countEvents isTimeoutEvent
          (if ld.state = st.last_status then []
           else [PollEvent.status_change ld.state st.last_status]) = 0 := by
        split_ifs with h1 <;> simp [countEvents, isTimeoutEvent]
      have hz2 : countEvents isTimeoutEvent
          (if (computeChanges ld.steps st.last_step_states).1 ≠ [] ∨ it = 0 then
            [PollEvent.log_update it (computeChanges ld.steps st.last_step_states).1
              ld.state ld.steps.length]
           else []) = 0 := by
        split_ifs with h1 <;> simp [countEvents, isTimeoutEvent]
      rw [hz1, hz2]
      omega
    · rw [hrec.2.2.2.2.2.2.2.2.2, hld, hbody]
      simp only [countEvents_append]
      have hz1 : countEvents isErrorEvent
          (if ld.state = st.last_status then []
           else [PollEvent.status_change ld.state st.last_status]) = 0 := by
        split_ifs with h1 <;> simp [countEvents, isErrorEvent]
      have hz2 : countEvents isErrorEvent
          (if (computeChanges ld.steps st.last_step_states).1 ≠ [] ∨ it = 0 then
            [PollEvent.log_update it (computeChanges ld.steps st.last_step_states).1
              ld.state ld.steps.length]
           else []) = 0 := by
        split_ifs with h1 <;> simp [countEvents, isErrorEvent]
      rw [hz1, hz2]
      omega

lemma statusChangeUpdate_last_step_states (ld : LogsData) (now : String)
    (st : PollState) :
    (statusChangeUpdate ld now st).last_step_states = st.last_step_states := by
  unfold statusChangeUpdate
  split_ifs with h1 <;> rfl

lemma finalUpdate_events_mono (ld : LogsData) (st : PollState)
    (ev : PollEvent) (h : ev ∈ st.events) : ev ∈ (finalUpdate ld st).events := by
  simp [finalUpdate, h]

/-- On iteration 0 the body always emits the `pipeline_logs` update, and
that update carries the diff of the fetched steps against the (initial)
step map. -/
lemma pollBody_ok_emits_first (ld : LogsData) (now : String) (st : PollState) :
    PollEvent.log_update 0 (computeChanges ld.steps st.last_step_states).1
        ld.state ld.steps.length ∈
      (pollBody (Except.ok ld) 0 now st).1.events := by
  by_cases hch : ld.state = st.last_status
  · by_cases hterm : remoteTerminal ld.state = true
    · have hterm2 : remoteTerminal st.last_status = true := hch ▸ hterm
      simp [pollBody, statusChangeUpdate, finalUpdate, hch, hterm2]
    · have hterm2 : ¬(remoteTerminal st.last_status = true) := fun hh =>
        hterm (by rw [hch]; exact hh)
      simp [pollBody, statusChangeUpdate, finalUpdate, hch, hterm2]
  · by_cases hterm : remoteTerminal ld.state = true <;>
      simp [pollBody, statusChangeUpdate, finalUpdate, hch, hterm]

/-- C6.  The poller's first poll iteration always emits a log update, and
that first update contains every step present in the first fetch's step
list (the initial step map is empty regardless of any state recorded
before the loop started, so every fetched step is new). -/
theorem poller_first_update_complete (fetch : Nat → Except String LogsData)
    (ex : PipelineExecution) (ps now : String) (max_iterations : Nat)
    (ld0 : LogsData) (h0 : fetch 0 = Except.ok ld0)
    (hmax : 0 < max_iterations) :
    PollEvent.log_update 0 (computeChanges ld0.steps []).1 ld0.state
        ld0.steps.length ∈
      (stream_pipeline_logs fetch ex ps now max_iterations).events ∧
    ∀ s ∈ ld0.steps, ∃ es ∈ (computeChanges ld0.steps []).1,
      es.name = s.name := by
  constructor
  · obtain ⟨f, rfl⟩ : ∃ f, max_iterations = f + 1 :=
      ⟨max_iterations - 1, by omega⟩
    rw [stream_pipeline_logs, pollLoopAux]
    have hmem : PollEvent.log_update 0 (computeChanges ld0.steps []).1
        ld0.state ld0.steps.length ∈
        (pollBody (fetch 0) 0 now (initPollState ex ps)).1.events := by
      rw [h0]
      have := pollBody_ok_emits_first ld0 now (initPollState ex ps)
      simpa [initPollState] using this
    by_cases hc : (pollBody (fetch 0) 0 now (initPollState ex ps)).2 = true
    · rw [if_pos hc]
      exact pollLoopAux_events_mono fetch now f 1 _ _ hmem
    · rw [if_neg hc]
      exact hmem
  · intro s hs
    exact computeChanges_covers ld0.steps [] s hs rfl

/-- Concrete poll data used by the poller witnesses: a non-terminal fetch
and a terminal fetch. -/
def demoBuilding : LogsData :=
  ⟨"u-1", 12, "BUILDING", "c0", none, none,
    [⟨"build", "BUILDING", some "s0", none, none, some "starting"⟩]⟩

def demoCompleted : LogsData :=
  ⟨"u-1", 12, "COMPLETED", "c0", some "c9", some 42,
    [⟨"build", "SUCCESSFUL", some "s0", some "c9", some 42, some "all good"⟩]⟩

/-- A live execution row as created by a successful trigger. -/
def demoExec : PipelineExecution :=
  ⟨1, "BUILDING", "manual", some 12, some "u-1", none, none, some "t0", none, none⟩

def demoFetchTerminal : Nat → Except String LogsData :=
  fun k => if k = 0 then Except.ok demoBuilding else Except.ok demoCompleted

/-- Witness for C6: the first fetch's only step appears in the first
emitted update. -/
theorem poller_first_update_complete_witness :
    PollEvent.log_update 0 (computeChanges demoBuilding.steps []).1
        demoBuilding.state demoBuilding.steps.length ∈
      (stream_pipeline_logs demoFetchTerminal demoExec "BUILDING" "t9" 120).events ∧
    ∀ s ∈ demoBuilding.steps, ∃ es ∈ (computeChanges demoBuilding.steps []).1,
      es.name = s.name := by
  exact poller_first_update_complete demoFetchTerminal demoExec "BUILDING" "t9"
    120 demoBuilding rfl (by omega)

/-- C4.  When a poll fetch returns a remote state in
`{COMPLETED, FAILED, STOPPED, ERROR}`, the poller maps COMPLETED to
internal SUCCESS and the others to FAILED, persists the assembled full
transcript and final status to the ExecutionRun, sets `completed_at`,
mirrors the status onto the owning Pipeline, emits exactly one final
completion notification, and performs no further fetches (the loop
exits after `n + 1` fetches). -/
theorem poller_terminal_detection (fetch : Nat → Except String LogsData)
    (ex : PipelineExecution) (ps now : String) (max_iterations n : Nat)
    (ldn : LogsData)
    (hpre : ∀ k, k < n → ∃ ld, fetch k = Except.ok ld ∧
      remoteTerminal ld.state = false)
    (hn : fetch n = Except.ok ldn) (hterm : remoteTerminal ldn.state = true)
    (hlt : n < max_iterations) (hinit : remoteTerminal ex.status = false) :
    (stream_pipeline_logs fetch ex ps now max_iterations).execution.status =
      (if ldn.state = "COMPLETED" then "SUCCESS" else "FAILED") ∧
    (stream_pipeline_logs fetch ex ps now max_iterations).execution.logs =
      some (fullTranscript ldn.steps) ∧
    (stream_pipeline_logs fetch ex ps now max_iterations).execution.completed_at =
      some now ∧
    (stream_pipeline_logs fetch ex ps now max_iterations).pipelineStatus =
      (if ldn.state = "COMPLETED" then "SUCCESS" else "FAILED") ∧
    countEvents isFinalEvent
      (stream_pipeline_logs fetch ex ps now max_iterations).events = 1 ∧
    countEvents isTimeoutEvent
      (stream_pipeline_logs fetch ex ps now max_iterations).events = 0 ∧
    (stream_pipeline_logs fetch ex ps now max_iterations).fetchCount = n + 1 := by
  have hok0 : ∀ k, k < n → ∃ ld, fetch (0 + k) = Except.ok ld ∧
      remoteTerminal ld.state = false := by
    intro k hk
    simpa using hpre k hk
  have hcont : ∀ k (st2 : PollState), k < n →
      (pollBody (fetch (0 + k)) (0 + k) now st2).2 = true := by
    intro k st2 hk
    obtain ⟨ld, hld, hldnt⟩ := hpre k hk
    simp only [Nat.zero_add]
    rw [hld]
    exact pollBody_ok_nonterminal_cont ld k now st2 hldnt
  have hskip := pollLoopAux_skip fetch now n max_iterations 0
    (initPollState ex ps) (by omega) hok0 hcont
  have hfacts := iteratePoll_facts fetch now n 0 (initPollState ex ps)
    hok0 rfl hinit
  obtain ⟨m, hm⟩ : ∃ m, max_iterations - n = m + 1 :=
    ⟨max_iterations - n - 1, by omega⟩
  have hne : ldn.state ≠
      (iteratePoll fetch now 0 n (initPollState ex ps)).last_status := by
    intro heq
    have h1 : remoteTerminal
        (iteratePoll fetch now 0 n (initPollState ex ps)).last_status = false := by
      rw [← hfacts.1]
      exact hfacts.2.1
    rw [← heq] at h1
    rw [hterm] at h1
    exact absurd h1 (by simp)
  have hbody := pollBody_ok_terminal ldn n now
    (iteratePoll fetch now 0 n (initPollState ex ps)) hterm hne
  have hres : stream_pipeline_logs fetch ex ps now max_iterations =
      (pollBody (Except.ok ldn) n now
        (iteratePoll fetch now 0 n (initPollState ex ps))).1 := by
    rw [stream_pipeline_logs, hskip, hm, pollLoopAux, Nat.zero_add, hn, hbody]
    rfl
  rw [hres, hbody]
  refine ⟨rfl, rfl, rfl, rfl, ?_, ?_, ?_⟩
  · simp only [countEvents_append]
    rw [hfacts.2.2.2.2.2.2.2.1]
    have hlog : countEvents isFinalEvent
        (if (computeChanges ldn.steps
            (iteratePoll fetch now 0 n (initPollState ex ps)).last_step_states).1 ≠ [] ∨
            n = 0 then
          [PollEvent.log_update n (computeChanges ldn.steps
            (iteratePoll fetch now 0 n (initPollState ex ps)).last_step_states).1
            ldn.state ldn.steps.length]
        else []) = 0 := by
      split_ifs with h1
      · rfl
      · rfl
    rw [hlog]
    rfl
  · simp only [countEvents_append]
    rw [hfacts.2.2.2.2.2.2.2.2.1]
    have hlog : countEvents isTimeoutEvent
        (if (computeChanges ldn.steps
            (iteratePoll fetch now 0 n (initPollState ex ps)).last_step_states).1 ≠ [] ∨
            n = 0 then
          [PollEvent.log_update n (computeChanges ldn.steps
            (iteratePoll fetch now 0 n (initPollState ex ps)).last_step_states).1
            ldn.state ldn.steps.length]
        else []) = 0 := by
      split_ifs with h1
      · rfl
      · rfl
    rw [hlog]
    rfl
  · show (iteratePoll fetch now 0 n (initPollState ex ps)).fetchCount + 1 = n + 1
    rw [hfacts.2.2.2.2.2.2.1]
    simp [initPollState]

/-- Witness for C4: a BUILDING fetch followed by a COMPLETED fetch yields
SUCCESS, the transcript, `completed_at`, a mirrored pipeline status, one
final notification, no timeout, and exactly two fetches. -/
theorem poller_terminal_detection_witness :
    (stream_pipeline_logs demoFetchTerminal demoExec "BUILDING" "t9" 120).execution.status = "SUCCESS" ∧
    (stream_pipeline_logs demoFetchTerminal demoExec "BUILDING" "t9" 120).execution.logs =
      some (fullTranscript demoCompleted.steps) ∧
    (stream_pipeline_logs demoFetchTerminal demoExec "BUILDING" "t9" 120).execution.completed_at =
      some "t9" ∧
    (stream_pipeline_logs demoFetchTerminal demoExec "BUILDING" "t9" 120).pipelineStatus = "SUCCESS" ∧
    countEvents isFinalEvent
      (stream_pipeline_logs demoFetchTerminal demoExec "BUILDING" "t9" 120).events = 1 ∧
    countEvents isTimeoutEvent
      (stream_pipeline_logs demoFetchTerminal demoExec "BUILDING" "t9" 120).events = 0 ∧
    (stream_pipeline_logs demoFetchTerminal demoExec "BUILDING" "t9" 120).fetchCount = 2 := by
  have h := poller_terminal_detection demoFetchTerminal demoExec "BUILDING" "t9"
    120 1 demoCompleted
    (by
      intro k hk
      have hk0 : k = 0 := by omega
      subst hk0
      exact ⟨demoBuilding, rfl, rfl⟩)
    rfl rfl (by omega) rfl
  simpa using h

/-- C7.  If the loop reaches `max_iterations` without ever observing a
terminal remote state, the poller emits exactly one timeout notification
and stops; the ExecutionRun is left exactly as it was before the timeout
was detected (the timeout branch touches no persisted field), and in
particular its status is non-terminal and not FAILED. -/
theorem poller_timeout_frame (fetch : Nat → Except String LogsData)
    (ex : PipelineExecution) (ps now : String) (max_iterations : Nat)
    (hall : ∀ k, k < max_iterations → ∃ ld, fetch k = Except.ok ld ∧
      remoteTerminal ld.state = false)
    (hinit : remoteTerminal ex.status = false) :
    stream_pipeline_logs fetch ex ps now max_iterations =
      { iteratePoll fetch now 0 max_iterations (initPollState ex ps) with
          events := (iteratePoll fetch now 0 max_iterations
            (initPollState ex ps)).events ++ [PollEvent.log_timeout] } ∧
    countEvents isTimeoutEvent
      (stream_pipeline_logs fetch ex ps now max_iterations).events = 1 ∧
    (stream_pipeline_logs fetch ex ps now max_iterations).execution =
      (iteratePoll fetch now 0 max_iterations (initPollState ex ps)).execution ∧
    remoteTerminal
      (stream_pipeline_logs fetch ex ps now max_iterations).execution.status = false ∧
    (stream_pipeline_logs fetch ex ps now max_iterations).execution.status ≠ "FAILED" := by
  have hok0 : ∀ k, k < max_iterations → ∃ ld, fetch (0 + k) = Except.ok ld ∧
      remoteTerminal ld.state = false := by
    intro k hk
    simpa using hall k hk
  have hcont : ∀ k (st2 : PollState), k < max_iterations →
      (pollBody (fetch (0 + k)) (0 + k) now st2).2 = true := by
    intro k st2 hk
    obtain ⟨ld, hld, hldnt⟩ := hall k hk
    simp only [Nat.zero_add]
    rw [hld]
    exact pollBody_ok_nonterminal_cont ld k now st2 hldnt
  have hskip := pollLoopAux_skip fetch now max_iterations max_iterations 0
    (initPollState ex ps) (Nat.le_refl _) hok0 hcont
  have hfacts := iteratePoll_facts fetch now max_iterations 0
    (initPollState ex ps) hok0 rfl hinit
  have hres : stream_pipeline_logs fetch ex ps now max_iterations =
      { iteratePoll fetch now 0 max_iterations (initPollState ex ps) with
          events := (iteratePoll fetch now 0 max_iterations
            (initPollState ex ps)).events ++ [PollEvent.log_timeout] } := by
    rw [stream_pipeline_logs, hskip, Nat.sub_self]
    rfl
  refine ⟨hres, ?_, by rw [hres], ?_, ?_⟩
  · rw [hres]
    simp only [countEvents_append]
    rw [hfacts.2.2.2.2.2.2.2.2.1]
    rfl
  · rw [hres]
    exact hfacts.2.1
  · rw [hres]
    intro heq
    have h2 := hfacts.2.1
    rw [show ({ iteratePoll fetch now 0 max_iterations (initPollState ex ps) with
        events := (iteratePoll fetch now 0 max_iterations
          (initPollState ex ps)).events ++ [PollEvent.log_timeout] } :
        PollState).execution =
        (iteratePoll fetch now 0 max_iterations (initPollState ex ps)).execution
      from rfl] at heq
    rw [heq] at h2
    exact absurd h2 (by simp [remoteTerminal])

def demoFetchBuilding : Nat → Except String LogsData :=
  fun _ => Except.ok demoBuilding

/-- Witness for C7: 120 BUILDING fetches end in exactly one timeout event
with the run's status still BUILDING, not FAILED. -/
theorem poller_timeout_frame_witness :
    countEvents isTimeoutEvent
      (stream_pipeline_logs demoFetchBuilding demoExec "BUILDING" "t9" 120).events = 1 ∧
    (stream_pipeline_logs demoFetchBuilding demoExec "BUILDING" "t9" 120).execution.status ≠ "FAILED" := by
  have h := poller_timeout_frame demoFetchBuilding demoExec "BUILDING" "t9" 120
    (fun k _ => ⟨demoBuilding, rfl, rfl⟩) rfl
  exact ⟨h.2.1, h.2.2.2.2⟩

/-- C8 (amended).  When a fetch inside the poll loop raises, the error is
reported to subscribers (`log_error`), written to the ExecutionRun's error
field, and the loop terminates with no further fetches — and, unlike the
claim's wording, the run **is** immediately marked FAILED by the except
handler (websocket_handlers.py line 210), without waiting for remote
terminal confirmation or the timeout. -/
theorem poller_fetch_error_stops (fetch : Nat → Except String LogsData)
    (ex : PipelineExecution) (ps now : String) (max_iterations n : Nat)
    (e : String)
    (hpre : ∀ k, k < n → ∃ ld, fetch k = Except.ok ld ∧
      remoteTerminal ld.state = false)
    (hn : fetch n = Except.error e) (hlt : n < max_iterations)
    (hinit : remoteTerminal ex.status = false) :
    (stream_pipeline_logs fetch ex ps now max_iterations).execution.error_message =
      some e ∧
    (stream_pipeline_logs fetch ex ps now max_iterations).execution.status =
      "FAILED" ∧
    PollEvent.log_error e ∈
      (stream_pipeline_logs fetch ex ps now max_iterations).events ∧
    (stream_pipeline_logs fetch ex ps now max_iterations).fetchCount = n + 1 ∧
    countEvents isTimeoutEvent
      (stream_pipeline_logs fetch ex ps now max_iterations).events = 0 := by
  have hok0 : ∀ k, k < n → ∃ ld, fetch (0 + k) = Except.ok ld ∧
      remoteTerminal ld.state = false := by
    intro k hk
    simpa using hpre k hk
  have hcont : ∀ k (st2 : PollState), k < n →
      (pollBody (fetch (0 + k)) (0 + k) now st2).2 = true := by
    intro k st2 hk
    obtain ⟨ld, hld, hldnt⟩ := hpre k hk
    simp only [Nat.zero_add]
    rw [hld]
    exact pollBody_ok_nonterminal_cont ld k now st2 hldnt
  have hskip := pollLoopAux_skip fetch now n max_iterations 0
    (initPollState ex ps) (by omega) hok0 hcont
  have hfacts := iteratePoll_facts fetch now n 0 (initPollState ex ps)
    hok0 rfl hinit
  obtain ⟨m, hm⟩ : ∃ m, max_iterations - n = m + 1 :=
    ⟨max_iterations - n - 1, by omega⟩
  have hres : stream_pipeline_logs fetch ex ps now max_iterations =
      (pollBody (Except.error e) n now
        (iteratePoll fetch now 0 n (initPollState ex ps))).1 := by
    rw [stream_pipeline_logs, hskip, hm, pollLoopAux, Nat.zero_add, hn,
      pollBody_error]
    rfl
  rw [hres, pollBody_error]
  refine ⟨rfl, rfl, ?_, ?_, ?_⟩
  · simp
  · show (iteratePoll fetch now 0 n (initPollState ex ps)).fetchCount + 1 = n + 1
    rw [hfacts.2.2.2.2.2.2.1]
    simp [initPollState]
  · simp only [countEvents_append]
    rw [hfacts.2.2.2.2.2.2.2.2.1]
    rfl

def demoFetchError : Nat → Except String LogsData :=
  fun k => if k = 0 then Except.ok demoBuilding else Except.error "socket timeout"

/-- Witness for the amended C8: one BUILDING fetch, then a fetch that
raises: the error lands in `error_message`, the status is FAILED, the
`log_error` event is emitted, exactly two fetches occur and no timeout is
emitted. -/
theorem poller_fetch_error_stops_witness :
    (stream_pipeline_logs demoFetchError demoExec "BUILDING" "t9" 120).execution.error_message =
      some "socket timeout" ∧
    (stream_pipeline_logs demoFetchError demoExec "BUILDING" "t9" 120).execution.status =
      "FAILED" ∧
    PollEvent.log_error "socket timeout" ∈
      (stream_pipeline_logs demoFetchError demoExec "BUILDING" "t9" 120).events ∧
    (stream_pipeline_logs demoFetchError demoExec "BUILDING" "t9" 120).fetchCount = 2 ∧
    countEvents isTimeoutEvent
      (stream_pipeline_logs demoFetchError demoExec "BUILDING" "t9" 120).events = 0 := by
  exact poller_fetch_error_stops demoFetchError demoExec "BUILDING" "t9" 120 1
    "socket timeout"
    (by
      intro k hk
      have hk0 : k = 0 := by omega
      subst hk0
      exact ⟨demoBuilding, rfl, rfl⟩)
    rfl (by omega) rfl

def demoFetchErrorAt0 : Nat → Except String LogsData :=
  fun _ => Except.error "connection reset"

/-- Counterexample to C8 as stated: the very first fetch raises — no
terminal remote state was ever confirmed and the timeout did not elapse
(one fetch, no timeout event), yet the run's persisted status is set to
FAILED immediately by the polling error. -/
theorem poller_error_marks_failed_immediately :
    (stream_pipeline_logs demoFetchErrorAt0 demoExec "BUILDING" "t9" 120).execution.status =
      "FAILED" ∧
    (stream_pipeline_logs demoFetchErrorAt0 demoExec "BUILDING" "t9" 120).fetchCount = 1 ∧
    countEvents isTimeoutEvent
      (stream_pipeline_logs demoFetchErrorAt0 demoExec "BUILDING" "t9" 120).events = 0 := by
  exact ⟨rfl, rfl, rfl⟩

/-! ### The `completed_at` ↔ terminal invariant (C10) -/

/-- Terminal statuses in the sense of the invariant: the internal terminal
states SUCCESS/FAILED together with their remote-mapped terminal
equivalents (the remote states the status-change path writes through
before the final mapping). -/
def internalTerminal (s : String) : Bool :=
  ["SUCCESS", "FAILED", "COMPLETED", "STOPPED", "ERROR"].contains s

lemma internalTerminal_false_of (s : String) (h1 : remoteTerminal s = false)
    (h2 : s ≠ "SUCCESS") : internalTerminal s = false := by
  simp [remoteTerminal] at h1
  simp [internalTerminal]
  tauto

/-- If every fetch succeeds (and the remote never reports the internal
marker `SUCCESS` as its state), every state the loop can leave behind
satisfies the invariant `completed_at` set ↔ status terminal. -/
lemma pollLoopAux_invariant (fetch : Nat → Except String LogsData)
    (now : String) :
    ∀ (fuel iteration : Nat) (st : PollState),
      (∀ k, ∃ ld, fetch k = Except.ok ld ∧ ld.state ≠ "SUCCESS") →
      st.execution.status = st.last_status →
      remoteTerminal st.execution.status = false →
      internalTerminal st.execution.status = false →
      st.execution.completed_at = none →
      ((pollLoopAux fetch now iteration fuel st).execution.completed_at.isSome = true ↔
        internalTerminal
          (pollLoopAux fetch now iteration fuel st).execution.status = true) := by
  intro fuel
  induction fuel with
  | zero =>
    intro it st _ _ _ hint hnone
    show (st.execution.completed_at.isSome = true ↔
      internalTerminal st.execution.status = true)
    rw [hnone, hint]
    simp
  | succ fuel ih =>
    intro it st hok hsync hnt hint hnone
    obtain ⟨ld, hld, hldS⟩ := hok it
    by_cases hterm : remoteTerminal ld.state = true
    · have hne : ld.state ≠ st.last_status := by
        intro heq
        rw [heq, ← hsync, hnt] at hterm
        exact absurd hterm (by simp)
      rw [pollLoopAux, hld, pollBody_ok_terminal ld it now st hterm hne]
      show (some now).isSome = true ↔
        internalTerminal (if ld.state = "COMPLETED" then "SUCCESS" else "FAILED") = true
      by_cases hc : ld.state = "COMPLETED"
      · simp [hc, internalTerminal]
      · simp [hc, internalTerminal]
    · have hterm2 : remoteTerminal ld.state = false := by
        cases h : remoteTerminal ld.state with
        | false => rfl
        | true => exact absurd h hterm
      rw [pollLoopAux, hld,
        pollBody_ok_nonterminal ld it now st hterm2 hsync,
        if_pos rfl]
      exact ih (it + 1) _ hok rfl hterm2
        (internalTerminal_false_of ld.state hterm2 hldS) hnone

/-- C10 (amended).  The invariant "`completed_at` is set iff the status is
terminal" holds for every ExecutionRun produced by the trigger route (both
the successful and the retry-exhausted outcome), and for the poll loop as
long as no fetch raises (status updates, terminal detection and timeout
all preserve it).  The poll-loop *fetch-error* path violates it: it sets
status FAILED while leaving `completed_at` unset (see the
counterexample). -/
theorem execution_completed_at_invariant
    (attempt : Nat → Except String TriggerApiResult) (enable_retry : Bool)
    (max_retries : Nat) (pid : Nat)
    (fetch : Nat → Except String LogsData) (ex : PipelineExecution)
    (ps now : String) (max_iterations : Nat)
    (hfetch : ∀ k, ∃ ld, fetch k = Except.ok ld ∧ ld.state ≠ "SUCCESS")
    (hinit1 : remoteTerminal ex.status = false)
    (hinit2 : internalTerminal ex.status = false)
    (hinit3 : ex.completed_at = none) :
    ((trigger_pipeline_execution attempt enable_retry max_retries now pid).execution.completed_at.isSome = true ↔
      internalTerminal
        (trigger_pipeline_execution attempt enable_retry max_retries now pid).execution.status = true) ∧
    ((stream_pipeline_logs fetch ex ps now max_iterations).execution.completed_at.isSome = true ↔
      internalTerminal
        (stream_pipeline_logs fetch ex ps now max_iterations).execution.status = true) := by
  constructor
  · have hcases := triggerLoop_outcome_cases attempt enable_retry max_retries
      now pid (max_retries + 1) 0 "" [] (by omega)
    rw [trigger_pipeline_execution]
    rcases hcases with h | h
    · rw [h.2.1, h.2.2]
      simp [internalTerminal]
    · rw [h.2.1, h.2.2]
      simp [internalTerminal]
  · exact pollLoopAux_invariant fetch now max_iterations 0
      (initPollState ex ps) hfetch rfl hinit1 hinit2 hinit3

/-- Witness for the amended C10: a failing trigger and a
BUILDING-then-COMPLETED poll both end in states satisfying the
invariant. -/
theorem execution_completed_at_invariant_witness :
    ((trigger_pipeline_execution (fun _ => Except.error "api down") true 3 "t9" 9).execution.completed_at.isSome = true ↔
      internalTerminal
        (trigger_pipeline_execution (fun _ => Except.error "api down") true 3 "t9" 9).execution.status = true) ∧
    ((stream_pipeline_logs demoFetchTerminal demoExec "BUILDING" "t9" 120).execution.completed_at.isSome = true ↔
      internalTerminal
        (stream_pipeline_logs demoFetchTerminal demoExec "BUILDING" "t9" 120).execution.status = true) := by
  exact execution_completed_at_invariant (fun _ => Except.error "api down") true
    3 9 demoFetchTerminal demoExec "BUILDING" "t9" 120
    (by
      intro k
      by_cases hk : k = 0
      · subst hk
        exact ⟨demoBuilding, rfl, by decide⟩
      · exact ⟨demoCompleted, by simp [demoFetchTerminal, hk], by decide⟩)
    rfl rfl rfl

/-- Counterexample to C10 as stated: a live run (status BUILDING,
`completed_at` unset) whose first poll fetch raises ends with status
FAILED — terminal — while `completed_at` is still unset, so the iff
fails on the poll-loop error path. -/
theorem poller_error_breaks_completed_at_invariant :
    (stream_pipeline_logs demoFetchErrorAt0 demoExec "BUILDING" "t9" 120).execution.status =
      "FAILED" ∧
    internalTerminal
      (stream_pipeline_logs demoFetchErrorAt0 demoExec "BUILDING" "t9" 120).execution.status = true ∧
    (stream_pipeline_logs demoFetchErrorAt0 demoExec "BUILDING" "t9" 120).execution.completed_at =
      none := by
  exact ⟨rfl, rfl, rfl⟩

end DevopsTool
